import Mathlib

/-!
Verification development for the `uat_takeout` back-office application.

This file shallowly embeds the two core subsystems of the repository:

* the password / token authentication subsystem (`modules/auth.py`):
  credential storage, password verification with legacy-plaintext
  auto-upgrade, and the password-change token lifecycle;
* the order-import reconciler (`modules/ui_settings_import.py`):
  status / vendor / invoice-number normalisation, per-group header and
  line-item construction, document-number sequencing and the upsert loop.

Conventions of the embedding:

* byte strings (`BLOB` columns, digests, salts) are lists of naturals;
* SQLite tables are lists of row structures; `fetchone` on an unordered
  `SELECT` is modelled as the first list element matching the predicate;
* wall-clock time is a natural number of seconds; the `%Y-%m-%d %H:%M:%S`
  strings the code stores are order-isomorphic to this encoding;
* `hashlib.pbkdf2_hmac("sha256", pw, salt, 200000)` is an uninterpreted
  function parameter `H : HashFun` (the claims never depend on the
  concrete digest values, only on determinism);
* `secrets.token_bytes` / `secrets.token_urlsafe` outputs are explicit
  parameters of the operations that draw them;
* Python floats are modelled as rationals.
-/

/-- Byte strings are modelled as lists of naturals (byte values). -/
abbrev Bytes := List Nat

/-- UTF-8 bytes of a single character. -/
def utf8CharBytes (c : Char) : List Nat :=
  let n := c.toNat
  if n < 128 then [n]
  else if n < 2048 then [192 + n / 64, 128 + n % 64]
  else if n < 65536 then [224 + n / 4096, 128 + (n / 64) % 64, 128 + n % 64]
  else [240 + n / 262144, 128 + (n / 4096) % 64, 128 + (n / 64) % 64, 128 + n % 64]

/-- UTF-8 encoding of a string; models Python `s.encode("utf-8")`. -/
def utf8Bytes (s : String) : Bytes :=
  (s.data.map utf8CharBytes).flatten

/-- Type of the iterated password hash
`hashlib.pbkdf2_hmac("sha256", password.encode("utf-8"), salt, 200000)`,
kept as an uninterpreted function parameter. -/
abbrev HashFun := String → Bytes → Bytes

/-- Models `_hash_password(password, salt)` from `auth.py` (the salt is
already a byte string, so `_to_bytes` is the identity on it). -/
def _hash_password (H : HashFun) (password : String) (salt : Bytes) : Bytes :=
  H password salt

/-- One row of the `users` table of `auth.py`. -/
structure UserRow where
  id : Nat
  email : String
  username : Option String
  password_hash : Bytes
  salt : Bytes
  is_active : Bool
deriving DecidableEq

/-- One row of the `password_tokens` table of `auth.py`. -/
structure TokenRow where
  id : Nat
  user_id : Nat
  token : String
  purpose : String
  expires_at : Nat
  used_at : Option Nat
deriving DecidableEq

/-- The user database of `auth.py` (`users` plus `password_tokens`). -/
structure AuthDB where
  users : List UserRow
  tokens : List TokenRow
deriving DecidableEq

/-- Models `SELECT ... FROM users WHERE (email=? OR username=?)` followed by
`fetchone()`: the first matching row.  A `NULL` username matches nothing. -/
def findUser (users : List UserRow) (login : String) : Option UserRow :=
  users.find? (fun u => u.email = login || u.username = some login)

/-- Models `UPDATE users SET password_hash=?, salt=? WHERE id=?`. -/
def setCredUsers (users : List UserRow) (uid : Nat) (pwh salt : Bytes) : List UserRow :=
  users.map (fun u => if u.id = uid then { u with password_hash := pwh, salt := salt } else u)

/-- The condition of the legacy-plaintext branch of `check_password`
(`auth.py` line 150): the stored salt is one of the two "never hashed"
sentinels, and the stored credential is non-empty and byte-equals the raw
UTF-8 password. -/
def legacyCond (u : UserRow) (password : String) : Prop :=
  (u.salt = [] ∨ u.salt = List.replicate 16 0) ∧
    u.password_hash ≠ [] ∧ u.password_hash = utf8Bytes password

instance (u : UserRow) (password : String) : Decidable (legacyCond u password) := by
  unfold legacyCond; infer_instance

/-- Models `check_password(login, password)` from `auth.py`.  `newSalt` is
the value drawn by `secrets.token_bytes(16)` in the legacy-upgrade branch.
Returns the boolean result together with the (possibly migrated) database;
the write and the read happen in the same transaction, which the functional
model renders as a single state transition. -/
def check_password (H : HashFun) (newSalt : Bytes) (db : AuthDB)
    (login password : String) : Bool × AuthDB :=
  match findUser db.users login with
  | none => (false, db)
  | some u =>
    if !u.is_active then (false, db)
    else
      let stored := u.password_hash
      let salt_b := u.salt
      if legacyCond u password then
        (true, { db with users := setCredUsers db.users u.id (_hash_password H password newSalt) newSalt })
      else if salt_b = [] ∨ stored = [] then (false, db)
      else (decide (stored = _hash_password H password salt_b), db)

/-- Result of `verify_token_and_change_password`, one constructor per
user-visible reason string of `auth.py`.  The "Token expiry is malformed"
branch is unreachable in the embedding because expiries are stored as
naturals, never as unparsable strings. -/
inductive RedeemResult where
  | missingInput
  | notFound
  | wrongPurpose
  | alreadyUsed
  | expired
  | tooShort
  | success
deriving DecidableEq

/-- Models `SELECT ... FROM password_tokens WHERE token=?` + `fetchone()`. -/
def findToken (tokens : List TokenRow) (token : String) : Option TokenRow :=
  tokens.find? (fun t => t.token = token)

/-- Models `UPDATE password_tokens SET used_at=strftime(...,'now') WHERE id=?`. -/
def markUsed (tokens : List TokenRow) (tid now : Nat) : List TokenRow :=
  tokens.map (fun t => if t.id = tid then { t with used_at := some now } else t)

/-- Models `verify_token_and_change_password(token, new_password)` from
`auth.py`.  `now` is `datetime.utcnow()`, `newSalt` the value of
`secrets.token_bytes(16)` drawn on success.  The credential write and the
token consumption form one transaction (one state transition). -/
def verify_token_and_change_password (H : HashFun) (newSalt : Bytes) (now : Nat)
    (db : AuthDB) (token new_password : String) : RedeemResult × AuthDB :=
  if token = "" ∨ new_password = "" then (.missingInput, db)
  else
    match findToken db.tokens token with
    | none => (.notFound, db)
    | some t =>
      if t.purpose ≠ ("password_change") then (.wrongPurpose, db)
      else if t.used_at.isSome then (.alreadyUsed, db)
      else if now > t.expires_at then (.expired, db)
      else if new_password.length < 8 then (.tooShort, db)
      else (.success,
        { users := setCredUsers db.users t.user_id (_hash_password H new_password newSalt) newSalt,
          tokens := markUsed db.tokens t.id now })

/-- Largest token id present (the `AUTOINCREMENT` high-water mark). -/
def maxTokenId (db : AuthDB) : Nat :=
  db.tokens.foldr (fun t m => max t.id m) 0

/-- Models `_create_token(user_id, purpose, minutes_valid)` from `auth.py`.
`tok` is the value of `secrets.token_urlsafe(24)`; the stored expiry is
`now + minutes_valid` minutes.  Returns the token string and the database
with the one inserted row. -/
def _create_token (tok : String) (now : Nat) (db : AuthDB) (user_id : Nat)
    (purpose : String) (minutes_valid : Nat) : String × AuthDB :=
  (tok, { db with tokens := db.tokens ++
    [{ id := maxTokenId db + 1, user_id := user_id, token := tok, purpose := purpose,
       expires_at := now + minutes_valid * 60, used_at := none }] })

/-- The generic reset-request message of `request_password_change`. -/
def genericResetMsg : String :=
  "If the account is registered and active, a confirmation token has been sent."

/-- Models `request_password_change(login)` from `auth.py`.  `emailOk`
states whether `_send_email` succeeds (raises no exception); `emailErr` is
the exception text when it fails; `tok` is the random token drawn by
`_create_token`.  Returns the `(ok, message)` pair and the new database. -/
def request_password_change (emailOk : Bool) (emailErr : String) (tok : String)
    (now : Nat) (db : AuthDB) (login : String) : (Bool × String) × AuthDB :=
  match findUser db.users login with
  | none => ((true, genericResetMsg), db)
  | some u =>
    if !u.is_active then ((true, genericResetMsg), db)
    else
      let db' := (_create_token tok now db u.id ("password_change") 15).2
      if emailOk then ((true, genericResetMsg), db')
      else ((false, "Failed to send token email: " ++ emailErr), db')


/-!
Order-import reconciler (`modules/ui_settings_import.py`).

A spreadsheet cell is either missing / `NaN`, a string, or a number
(Python floats are modelled as rationals).  A row is an association list
from column names to cells; `row.get(col)` returning `None` for an absent
column is modelled by `rowGet?` returning `none`.
-/

/-- One spreadsheet cell as seen by pandas. -/
inductive Cell where
  | na
  | str (s : String)
  | num (q : ℚ)
deriving DecidableEq

/-- One dataframe row: column name to cell. -/
abbrev Row := List (String × Cell)

/-- Models `row.get(col)` / `col in first`: `none` when the column is absent. -/
def rowGet? (r : Row) (c : String) : Option Cell :=
  (r.find? (fun p => p.1 = c)).map (fun p => p.2)

/-- Does the row have the column at all (`src in first`)? -/
def hasCol (r : Row) (c : String) : Bool :=
  (rowGet? r c).isSome

/-- Models `pd.isna(x)`: true for `None` (absent column) and for `NaN`. -/
def cellIsNa : Option Cell → Bool
  | none => true
  | some .na => true
  | some _ => false

/-- Python truthiness of a cell value: `NaN` is truthy, `""` and `0.0` are
falsy.  Used for the `first.get("Name") or first.get("Id") or ""` chain. -/
def cellTruthy : Cell → Bool
  | .na => true
  | .str s => s ≠ ""
  | .num q => q ≠ 0

/-- Python whitespace (the characters `str.strip` removes and `\s` matches). -/
def isPySpace (c : Char) : Bool :=
  c = ' ' ∨ c = '\t' ∨ c = '\n' ∨ c = '\r' ∨ c = '\x0b' ∨ c = '\x0c'

/-- Models Python `str.strip()` on a character list. -/
def pyStripChars (cs : List Char) : List Char :=
  ((cs.dropWhile isPySpace).reverse.dropWhile isPySpace).reverse

/-- Models Python `str.strip()`. -/
def pyStrip (s : String) : String :=
  String.mk (pyStripChars s.data)

/-- Models Python `str.lower()` (ASCII). -/
def pyLower (s : String) : String :=
  String.mk (s.data.map Char.toLower)

/-- Models Python `str.endswith(suf)`. -/
def pyEndsWith (s suf : String) : Bool :=
  suf.data.isSuffixOf s.data

/-- Substring test over characters, models Python `needle in hay`. -/
def containsChars (n : List Char) : List Char → Bool
  | [] => decide (n = [])
  | c :: t => n.isPrefixOf (c :: t) || containsChars n t

/-- Value of an all-digit character list; `none` on a non-digit. -/
def digitsVal? : List Char → Option Nat
  | [] => some 0
  | c :: cs =>
    if c.isDigit then
      (digitsVal? cs).map (fun v => (c.toNat - 48) * 10 ^ cs.length + v)
    else none

/-- Decimal fragment of Python `float(s)`: optional sign, digits, optional
fractional part; `none` on malformed input.  (Exponent and special forms
are not modelled; no claim depends on them, and `_f` falls back to `0.0`
on any parse failure anyway.) -/
def parseDec (s0 : String) : Option ℚ :=
  let cs0 := pyStripChars s0.data
  let signNeg : Bool := match cs0 with | '-' :: _ => true | _ => false
  let cs := match cs0 with
    | '-' :: rest => rest
    | '+' :: rest => rest
    | _ => cs0
  let ip := cs.takeWhile Char.isDigit
  let rest := cs.dropWhile Char.isDigit
  let mag? : Option ℚ :=
    match rest with
    | [] => if ip = [] then none else (digitsVal? ip).map (fun n => (n : ℚ))
    | '.' :: fp =>
      if fp.all Char.isDigit ∧ ¬(ip = [] ∧ fp = []) then
        match digitsVal? ip, digitsVal? fp with
        | some ni, some nf => some ((ni : ℚ) + (nf : ℚ) / (10 : ℚ) ^ fp.length)
        | _, _ => none
      else none
    | _ => none
  mag?.map (fun q => if signNeg then -q else q)

/-- Remove every comma, models `x.replace(",","")`. -/
def stripCommas (s : String) : String :=
  String.mk (s.data.filter (fun c => c ≠ ','))

/-- Models `_f(x)` from `ui_settings_import.py`: `NaN`/`None` and parse
failures become `0.0`; strings are comma-stripped and trimmed first. -/
def _f (x : Option Cell) : ℚ :=
  match x with
  | none => 0
  | some .na => 0
  | some (.num q) => q
  | some (.str s) => (parseDec (pyStrip (stripCommas s))).getD 0

/-- Python `str(float)` for the values the claims touch; exact for integral
floats (`"1002.0"` style), approximated by the rational rendering otherwise. -/
def floatStr (q : ℚ) : String :=
  if q.den = 1 then toString q.num ++ (".0") else toString q

/-- Models `_s(x)` from `ui_settings_import.py`: `NaN`/`None` become `""`,
anything else is rendered and trimmed. -/
def _s (x : Option Cell) : String :=
  match x with
  | none => ""
  | some .na => ""
  | some (.str s) => pyStrip s
  | some (.num q) => pyStrip (floatStr q)

/-- Python `str.title()` for ASCII: a cased character following a non-cased
one is uppercased, any other cased character is lowercased. -/
def pytitleGo : Bool → List Char → List Char
  | _, [] => []
  | prevCased, c :: cs =>
    if c.isAlpha then
      (if prevCased then c.toLower else c.toUpper) :: pytitleGo true cs
    else
      c :: pytitleGo false cs

/-- Python `s.title()`. -/
def pytitle (s : String) : String :=
  String.mk (pytitleGo false s.data)

/-- The `ALLOWED_STATUS` set of `ui_settings_import.py`. -/
def ALLOWED_STATUS : List String := ["Pending", "Paid", "Voided"]

/-- The `STATUS_MAP` synonym table of `ui_settings_import.py`. -/
def STATUS_MAP : List (String × String) :=
  [("unpaid", "Pending"), ("new", "Pending"), ("open", "Pending"),
   ("partially paid", "Pending"), ("partial", "Pending"),
   ("awaiting payment", "Pending"), ("due", "Pending"),
   ("cancelled", "Voided"), ("canceled", "Voided"), ("void", "Voided"),
   ("voided", "Voided"), ("closed - void", "Voided"),
   ("complete", "Paid"), ("completed", "Paid"), ("done", "Paid"),
   ("paid/closed", "Paid"), ("settled", "Paid")]

/-- First-match association lookup (Python `dict` membership + indexing). -/
def lookupStr (l : List (String × String)) (k : String) : Option String :=
  (l.find? (fun p => p.1 = k)).map (fun p => p.2)

/-- Models `_clean_status(x)`; `none` is Python `None`. -/
def _clean_status (x : Option String) : String :=
  match x with
  | none => "Pending"
  | some x0 =>
    let s := pyStrip x0
    if s = "" ∨ pyLower s ∈ (["nan", "none", "null"] : List String) then "Pending"
    else
      match lookupStr STATUS_MAP (pyLower s) with
      | some v => v
      | none => pyStrip (pytitle s)

/-- Models `_clean_invoice_no(x)` on the string the call sites pass: trim,
strip one trailing `".0"`, delete all remaining whitespace. -/
def _clean_invoice_no (x : String) : String :=
  let s := pyStrip x
  let s := if pyEndsWith s (".0") then String.mk (s.data.take (s.data.length - 2)) else s
  String.mk (s.data.filter (fun c => !isPySpace c))

/-- The `ALLOWED_VENDORS` set of `ui_settings_import.py`. -/
def ALLOWED_VENDORS : List String := ["Takeout Store", "Lola Tindeng", "Swiss Proli"]

/-- The `VENDOR_MAP` synonym table of `ui_settings_import.py`. -/
def VENDOR_MAP : List (String × String) :=
  [("takeout store", "Takeout Store"), ("lola tindeng", "Lola Tindeng"),
   ("swiss proli", "Swiss Proli"), ("swiss proli.", "Swiss Proli"),
   ("swiss-proli", "Swiss Proli"), ("swissproli", "Swiss Proli"),
   ("swiss prolife", "Swiss Proli"), ("takeoutstore", "Takeout Store"),
   ("takeoutstoreph", "Takeout Store"), ("takeout-store", "Takeout Store"),
   ("takeout store ph", "Takeout Store"), ("takeoutstore-ph", "Takeout Store")]

/-- Models `re.sub(r"[^a-z0-9]+", "", low)`: keep ASCII lowercase letters
and digits only. -/
def keepAlnum (s : String) : List Char :=
  s.data.filter (fun c => ('a' ≤ c ∧ c ≤ 'z') ∨ ('0' ≤ c ∧ c ≤ '9'))

/-- Models `_clean_vendor(x)` on the string the call sites pass. -/
def _clean_vendor (x : String) : String :=
  let s := pyStrip x
  if s = "" ∨ pyLower s ∈ (["nan", "none", "null"] : List String) then ""
  else
    let low := pyStrip (pyLower s)
    match lookupStr VENDOR_MAP low with
    | some v => v
    | none =>
      let alnum := keepAlnum low
      if List.isPrefixOf (("takeout").data) alnum then "Takeout Store"
      else if containsChars (("lola").data) alnum ∧ containsChars (("tindeng").data) alnum then
        "Lola Tindeng"
      else if containsChars (("swiss").data) alnum ∧ containsChars (("proli").data) alnum then
        "Swiss Proli"
      else pyStrip (pytitle s)

/-- One invoice line item (shape of the dicts built in `_header_from_group`
and of the `sales_items` columns they are written to). -/
structure Item where
  product_code : String
  product_name : String
  unit : String
  quantity : ℚ
  price : ℚ
  total_amount : ℚ
deriving DecidableEq

/-- The raw line-item pass of `_header_from_group` (lines 301-314): a row is
dropped when its parsed quantity is `0` and its `Lineitem name` cell is
missing / `NaN`; every retained row becomes an item with
`total_amount = quantity * price`. -/
def rawItems (g : List Row) : List Item :=
  match g with
  | [] => []
  | r :: rest =>
    let qty := _f (rowGet? r ("Lineitem quantity"))
    if qty = 0 ∧ cellIsNa (rowGet? r ("Lineitem name")) then rawItems rest
    else
      { product_code := _s (rowGet? r ("Lineitem sku")),
        product_name := _s (rowGet? r ("Lineitem name")),
        unit := "",
        quantity := qty,
        price := _f (rowGet? r ("Lineitem price")),
        total_amount := qty * _f (rowGet? r ("Lineitem price")) } :: rawItems rest

/-- Aggregation key `(code, name, price, unit)` of `_aggregate_items`. -/
def itemKey (it : Item) : String × String × ℚ × String :=
  (it.product_code, it.product_name, it.price, it.unit)

/-- Keys in dict-insertion order (first occurrence first), as a Python
`defaultdict` iterates them. -/
def keysInOrder (items : List Item) : List (String × String × ℚ × String) :=
  items.foldl (fun ks it => if itemKey it ∈ ks then ks else ks ++ [itemKey it]) []

/-- Models `_aggregate_items(items)`: group by `(code, name, price, unit)`,
summing quantity and line total, in key-insertion order. -/
def _aggregate_items (items : List Item) : List Item :=
  (keysInOrder items).map (fun k =>
    { product_code := k.1,
      product_name := k.2.1,
      unit := k.2.2.2,
      quantity := ((items.filter (fun it => itemKey it = k)).map (fun it => it.quantity)).sum,
      price := k.2.2.1,
      total_amount := ((items.filter (fun it => itemKey it = k)).map (fun it => it.total_amount)).sum })

/-- The header fields of `_header_from_group` that carry bespoke logic.  The
remaining `COLMAP` destinations are verbatim `_s`/`_f` copies of single
cells and play no part in any claim. -/
structure Header where
  invoice_no : String
  financial_status : String
  vendor : String
  receipt_number : String
  subtotal : ℚ
  discount_amount : ℚ
  total : ℚ
deriving DecidableEq

/-- Second link of the `first.get("Name") or first.get("Id") or ""` chain. -/
def rawNameId (first : Row) : Cell :=
  match rowGet? first ("Id") with
  | some c => if cellTruthy c then c else .str ""
  | none => .str ""

/-- Models `raw_name = first.get("Name") or first.get("Id") or ""`
(Python `or` keeps the first truthy operand; note `NaN` is truthy). -/
def raw_name (first : Row) : Cell :=
  match rowGet? first ("Name") with
  | some c => if cellTruthy c then c else rawNameId first
  | none => rawNameId first

/-- Models `_header_from_group(g, combine_items)` (the claim-relevant
fields).  `g.iloc[0]` is the first row of the group. -/
def _header_from_group (combine_items : Bool) (g : List Row) : Header × List Item :=
  let first : Row := g.headD []
  let inv0 : String :=
    if hasCol first ("Name") then _s (rowGet? first ("Name"))
    else _s (some (raw_name first))
  let invoice_no := _clean_invoice_no inv0
  let fs := _clean_status (some
    (if hasCol first ("Financial Status") then _s (rowGet? first ("Financial Status"))
     else "Pending"))
  let vendor := _clean_vendor
    (if hasCol first ("Vendor") then _s (rowGet? first ("Vendor")) else "")
  let receipt :=
    if hasCol first ("Receipt Number") then _s (rowGet? first ("Receipt Number")) else ""
  let items0 := rawItems g
  let items := if combine_items ∧ items0 ≠ [] then _aggregate_items items0 else items0
  let sub0 : ℚ := if hasCol first ("Subtotal") then _f (rowGet? first ("Subtotal")) else 0
  let subtotal := if sub0 = 0 then (items.map (fun i => i.total_amount)).sum else sub0
  let d0 : ℚ :=
    if hasCol first ("Discount Amount") then _f (rowGet? first ("Discount Amount")) else 0
  let discount := if d0 = 0 then _f (rowGet? first ("Lineitem discount")) else d0
  let t0 : ℚ := if hasCol first ("Total") then _f (rowGet? first ("Total")) else 0
  let total := if t0 = 0 then max (subtotal - discount) 0 else t0
  ({ invoice_no := invoice_no, financial_status := fs, vendor := vendor,
     receipt_number := receipt, subtotal := subtotal, discount_amount := discount,
     total := total }, items)

/-- One row of the `sales` table (claim-relevant columns). -/
structure SaleRow where
  id : Nat
  invoice_no : String
  financial_status : String
  vendor : String
  receipt_number : String
deriving DecidableEq

/-- One row of the `sales_items` table. -/
structure ItemRow where
  sale_id : Nat
  line_no : Nat
  item : Item
deriving DecidableEq

/-- The invoice store: `sales`, `sales_items` and the `sequences` table. -/
structure ImportDB where
  sales : List SaleRow
  salesItems : List ItemRow
  seqs : List (String × Nat)
deriving DecidableEq

/-- The `AUTOINCREMENT` high-water mark for `sales.id`. -/
def maxSaleId (db : ImportDB) : Nat :=
  db.sales.foldr (fun r m => max r.id m) 0

/-- Models the `UPDATE sales SET ... WHERE id=?` of `_save_order`. -/
def updSale (header : Header) (sid : Nat) (r : SaleRow) : SaleRow :=
  if r.id = sid then
    { r with invoice_no := header.invoice_no, financial_status := header.financial_status,
             vendor := header.vendor, receipt_number := header.receipt_number }
  else r

/-- Fresh `sales` row inserted by `_save_order`. -/
def mkSale (sid : Nat) (h : Header) : SaleRow :=
  ⟨sid, h.invoice_no, h.financial_status, h.vendor, h.receipt_number⟩

/-- The `sales_items` payload: line numbers are `i+1` over the enumeration. -/
def itemRows (sid : Nat) (items : List Item) : List ItemRow :=
  items.enum.map (fun p => ⟨sid, p.1 + 1, p.2⟩)

/-- Models `_save_order(conn, header, items)`: upsert by unique invoice
number; on update all prior line items of the sale are deleted and the new
set inserted; the whole step is one transaction (one state transition). -/
def _save_order (db : ImportDB) (header : Header) (items : List Item) : Nat × ImportDB :=
  match db.sales.find? (fun r => r.invoice_no = header.invoice_no) with
  | some r =>
    (r.id, { db with sales := db.sales.map (updSale header r.id),
                     salesItems := db.salesItems.filter (fun ir => ir.sale_id ≠ r.id)
                                   ++ itemRows r.id items })
  | none =>
    let sid := maxSaleId db + 1
    (sid, { db with sales := db.sales ++ [mkSale sid header],
                    salesItems := db.salesItems ++ itemRows sid items })

/-- Zero-pad on the left, models `str(seq).zfill(pad)` for non-negative input. -/
def zfill (pad : Nat) (s : String) : String :=
  if pad ≤ s.length then s
  else String.mk (List.replicate (pad - s.length) '0') ++ s

/-- Sequence-table lookup (`SELECT value FROM sequences WHERE name=?`). -/
def lookupSeq (seqs : List (String × Nat)) (name : String) : Option Nat :=
  (seqs.find? (fun p => p.1 = name)).map (fun p => p.2)

/-- Sequence-table update (`UPDATE sequences SET value=? WHERE name=?`). -/
def updateSeq (seqs : List (String × Nat)) (name : String) (v : Nat) : List (String × Nat) :=
  seqs.map (fun p => if p.1 = name then (p.1, v) else p)

/-- Models `_next_doc_no(conn, when)`: `pfx` is `DOC_PREFIX` (default
`"INV"`), `pad` is `DOC_PAD` (default `4`), `ym` is `when.strftime("%Y%m")`.
Returns the formatted document number and the updated sequence table. -/
def _next_doc_no (pfx : String) (pad : Nat) (ym : String)
    (seqs : List (String × Nat)) : String × List (String × Nat) :=
  let seq_name := pfx ++ "-" ++ ym
  match lookupSeq seqs seq_name with
  | none =>
    (pfx ++ "-" ++ ym ++ "-" ++ zfill pad (toString 1), seqs ++ [(seq_name, 1)])
  | some v =>
    (pfx ++ "-" ++ ym ++ "-" ++ zfill pad (toString (v + 1)), updateSeq seqs seq_name (v + 1))

/-- One audit-trail entry (claim-relevant columns of `audit_log`). -/
structure AuditRow where
  action : String
  invoice_no : String
  document_no : Option String
  details : String
deriving DecidableEq

/-- Outcome of one group of the import loop. -/
inductive Outcome where
  | skippedStatus
  | skippedVendor
  | skippedInvoiceNo
  | inserted
  | updated
deriving DecidableEq

/-- Result of processing one group. -/
structure GroupResult where
  db : ImportDB
  outcome : Outcome
  audit : AuditRow
deriving DecidableEq

/-- Configuration of one import run: document prefix and pad, year-month of
the import time, and the "combine duplicate line items" toggle. -/
structure ImportCfg where
  pfx : String
  pad : Nat
  ym : String
  combine : Bool
deriving DecidableEq

/-- The body of the import loop after the three validation gates
(`render`, lines 453-475): allocate a document number if the header has
none, keep the receipt number of an existing row, upsert, audit. -/
def importValidGroup (cfg : ImportCfg) (db : ImportDB) (header : Header)
    (items : List Item) : GroupResult :=
  let h1 : Header := { header with receipt_number :=
    if header.receipt_number = "" then (_next_doc_no cfg.pfx cfg.pad cfg.ym db.seqs).1
    else header.receipt_number }
  let db1 : ImportDB := { db with seqs :=
    if header.receipt_number = "" then (_next_doc_no cfg.pfx cfg.pad cfg.ym db.seqs).2
    else db.seqs }
  match db.sales.find? (fun r => r.invoice_no = header.invoice_no) with
  | some r =>
    let h2 : Header := { h1 with receipt_number :=
      if r.receipt_number ≠ "" then r.receipt_number else h1.receipt_number }
    ⟨(_save_order db1 h2 items).2, .updated,
      ⟨"update", header.invoice_no, some h2.receipt_number, toString (_save_order db1 h2 items).1⟩⟩
  | none =>
    ⟨(_save_order db1 h1 items).2, .inserted,
      ⟨"insert", header.invoice_no, some h1.receipt_number, toString (_save_order db1 h1 items).1⟩⟩

/-- One iteration of the import loop of `render` (lines 427-475): the three
validation gates route invalid groups to a skip outcome with an audit entry
and no store write; valid groups are upserted.  (The quotes of the Python
f-strings around the offending value are omitted from the modelled reason
text.) -/
def processGroup (cfg : ImportCfg) (db : ImportDB) (g : List Row) : GroupResult :=
  let hi := _header_from_group cfg.combine g
  let header := hi.1
  if header.financial_status ∉ ALLOWED_STATUS then
    ⟨db, .skippedStatus,
      ⟨"skip_invalid_status", header.invoice_no, none,
        "Invalid financial_status " ++ header.financial_status ++ " after normalization"⟩⟩
  else if header.vendor ∉ ALLOWED_VENDORS then
    ⟨db, .skippedVendor,
      ⟨"skip_invalid_vendor", header.invoice_no, none,
        "Invalid vendor " ++ header.vendor ++ " after normalization"⟩⟩
  else if header.invoice_no = "" then
    ⟨db, .skippedInvoiceNo,
      ⟨"skip_missing_invoice_no", "", none, "Missing invoice_no after normalization"⟩⟩
  else importValidGroup cfg db header hi.2

/-- The `Imported / Updated / Skipped` tallies of `render`. -/
structure Summary where
  imported : Nat
  updated : Nat
  skipped : Nat
deriving DecidableEq

/-- Tally of a single outcome. -/
def tally : Outcome → Summary
  | .inserted => ⟨1, 0, 0⟩
  | .updated => ⟨0, 1, 0⟩
  | _ => ⟨0, 0, 1⟩

/-- Pointwise sum of tallies. -/
def addSummary (a b : Summary) : Summary :=
  ⟨a.imported + b.imported, a.updated + b.updated, a.skipped + b.skipped⟩

/-- Result of one full import run. -/
structure RunResult where
  db : ImportDB
  summary : Summary
deriving DecidableEq

/-- The import loop of `render` over the groups of the (de-duplicated)
dataframe.  Grouping a fixed file is deterministic, so re-uploading the
identical file re-runs this fold on the identical group list; the theorems
quantify over an arbitrary group list, which covers any grouping order. -/
def runGroups (cfg : ImportCfg) (db : ImportDB) : List (List Row) → RunResult
  | [] => ⟨db, ⟨0, 0, 0⟩⟩
  | g :: gs =>
    let r := processGroup cfg db g
    let rest := runGroups cfg r.db gs
    ⟨rest.db, addSummary (tally r.outcome) rest.summary⟩

/-- Models `df.drop_duplicates()`: keep the first occurrence of each exact
row. -/
def dropDuplicates : List Row → List Row
  | [] => []
  | r :: rest => r :: dropDuplicates (rest.filter (fun x => x ≠ r))
termination_by l => l.length
decreasing_by
  simp only [List.length_cons]
  exact Nat.lt_succ_of_le (List.length_filter_le _ _)

/-- A group passes all three validation gates of the import loop. -/
def validGroup (combine : Bool) (g : List Row) : Bool :=
  let h := (_header_from_group combine g).1
  decide (h.financial_status ∈ ALLOWED_STATUS) && decide (h.vendor ∈ ALLOWED_VENDORS) &&
    !(h.invoice_no = "")

/-- Normalised invoice number of a group. -/
def invOf (combine : Bool) (g : List Row) : String :=
  ((_header_from_group combine g).1).invoice_no

/-- The store already has a sale with this invoice number. -/
def saleHasInv (db : ImportDB) (inv : String) : Prop :=
  ∃ r ∈ db.sales, r.invoice_no = inv

instance (db : ImportDB) (inv : String) : Decidable (saleHasInv db inv) := by
  unfold saleHasInv; infer_instance

/-- Primary-key invariant of the `sales` table. -/
def salesIdsNodup (db : ImportDB) : Prop :=
  (db.sales.map (fun r => r.id)).Nodup

instance (db : ImportDB) : Decidable (salesIdsNodup db) := by
  unfold salesIdsNodup; infer_instance

/-!
Shared helper lemmas about first-match lookups over list-modelled tables.
-/

/-- Mapping a row-transformer that does not change the looked-up key over a
table commutes with the first-match lookup. -/
theorem find?_map_pres {α : Type} (f : α → α) (p : α → Bool) (l : List α)
    (hp : ∀ a, p (f a) = p a) : (l.map f).find? p = (l.find? p).map f := by
  induction l with
  | nil => rfl
  | cons a l ih =>
    rw [List.map_cons]
    by_cases h : p a = true
    · rw [List.find?_cons_of_pos _ h, List.find?_cons_of_pos _ (by rw [hp a]; exact h)]
      rfl
    · rw [List.find?_cons_of_neg _ (by rw [hp a]; simpa using h),
        List.find?_cons_of_neg _ (by simpa using h)]
      exact ih

/-- First-match lookup in an appended table skips a prefix with no match. -/
theorem find?_append_none {α : Type} (p : α → Bool) (l l' : List α)
    (h : l.find? p = none) : (l ++ l').find? p = l'.find? p := by
  induction l with
  | nil => rfl
  | cons a t ih =>
    rw [List.cons_append]
    have ha : ¬ p a = true := by
      intro hpa
      rw [List.find?_cons_of_pos _ hpa] at h
      exact Option.noConfusion h
    rw [List.find?_cons_of_neg _ ha]
    apply ih
    rwa [List.find?_cons_of_neg _ ha] at h

/-- Updating credentials does not move the row `findUser` returns. -/
theorem findUser_setCred (users : List UserRow) (uid : Nat) (pwh salt : Bytes)
    (login : String) :
    findUser (setCredUsers users uid pwh salt) login =
      (findUser users login).map
        (fun u => if u.id = uid then { u with password_hash := pwh, salt := salt } else u) := by
  unfold findUser setCredUsers
  apply find?_map_pres
  intro a
  by_cases h : a.id = uid <;> simp [h]

/-- Consuming a token does not move the row `findToken` returns. -/
theorem findToken_markUsed (tokens : List TokenRow) (tid now : Nat) (tok : String) :
    findToken (markUsed tokens tid now) tok =
      (findToken tokens tok).map
        (fun t => if t.id = tid then { t with used_at := some now } else t) := by
  unfold findToken markUsed
  apply find?_map_pres
  intro a
  by_cases h : a.id = tid <;> simp [h]



/-!
Claim theorems.
-/

/-- C1 counterexample: the claim quantifies over every account whose stored
salt is the empty sentinel and whose stored credential byte-equals the raw
UTF-8 password, and asserts `check_password` then returns `true`.  For the
empty password the empty stored credential byte-equals its UTF-8 encoding
(both are `b""`), yet `check_password` returns `false`: the legacy branch
additionally requires a non-empty stored credential (`stored and ...` on
line 150 of `auth.py`). -/
theorem c1_counterexample :
    (⟨1, "a@x.com", none, [], [], true⟩ : UserRow).salt = [] ∧
    (⟨1, "a@x.com", none, [], [], true⟩ : UserRow).password_hash = utf8Bytes ("") ∧
    (⟨1, "a@x.com", none, [], [], true⟩ : UserRow).is_active = true ∧
    findUser (⟨[⟨1, "a@x.com", none, [], [], true⟩], []⟩ : AuthDB).users ("a@x.com") =
      some ⟨1, "a@x.com", none, [], [], true⟩ ∧
    check_password (fun _ _ => List.replicate 32 1) (List.replicate 16 7)
        (⟨[⟨1, "a@x.com", none, [], [], true⟩], []⟩ : AuthDB) ("a@x.com") "" =
      (false, (⟨[⟨1, "a@x.com", none, [], [], true⟩], []⟩ : AuthDB)) := by
  refine ⟨rfl, rfl, rfl, rfl, ?_⟩
  decide

/-- C1 (amended): for every account whose stored salt is the empty sentinel
and whose stored credential is non-empty and byte-equals the raw UTF-8
password, `check_password` returns `true` and replaces the stored
credential by a freshly salted iterated hash in the same transaction;
provided the freshly drawn 16-byte salt is not itself one of the two legacy
sentinels (which holds for `secrets.token_bytes(16)` outside a
2^-128-probability event), the migrated account no longer satisfies the
legacy-plaintext condition for any password, so a second login never
re-triggers the legacy path. -/
theorem c1_legacy_upgrade (H : HashFun) (ns : Bytes) (db : AuthDB)
    (login password : String) (u : UserRow)
    (hfind : findUser db.users login = some u)
    (hact : u.is_active = true)
    (hsalt : u.salt = [])
    (hcred : u.password_hash = utf8Bytes password)
    (hne : u.password_hash ≠ [])
    (hns1 : ns ≠ []) (hns2 : ns ≠ List.replicate 16 0) :
    (check_password H ns db login password).1 = true ∧
    (check_password H ns db login password).2 =
      { db with users := setCredUsers db.users u.id (H password ns) ns } ∧
    findUser (check_password H ns db login password).2.users login =
      some { u with password_hash := H password ns, salt := ns } ∧
    (∀ password2 : String,
      ¬ legacyCond { u with password_hash := H password ns, salt := ns } password2) := by
  have hleg : legacyCond u password := ⟨Or.inl hsalt, hne, hcred⟩
  have hrun : check_password H ns db login password =
      (true, { db with users := setCredUsers db.users u.id (H password ns) ns }) := by
    unfold check_password
    rw [hfind]
    simp [hact, hleg, _hash_password]
  refine ⟨by rw [hrun], by rw [hrun], ?_, ?_⟩
  · rw [hrun]
    show findUser (setCredUsers db.users u.id (H password ns) ns) login = _
    rw [findUser_setCred, hfind]
    simp
  · intro password2 hcond
    rcases hcond with ⟨hs, _, _⟩
    simp only at hs
    rcases hs with h1 | h2
    · exact hns1 h1
    · exact hns2 h2

/-- C1 witness: a concrete legacy-plaintext account on which the amended
theorem applies and migration happens. -/
theorem c1_witness :
    findUser (⟨[⟨1, "a@x.com", none, utf8Bytes ("pw123456"), [], true⟩], []⟩ : AuthDB).users
      ("a@x.com") = some ⟨1, "a@x.com", none, utf8Bytes ("pw123456"), [], true⟩ ∧
    (check_password (fun p s => utf8Bytes p ++ s) (List.replicate 16 1)
        (⟨[⟨1, "a@x.com", none, utf8Bytes ("pw123456"), [], true⟩], []⟩ : AuthDB)
        ("a@x.com") ("pw123456")).1 = true := by
  refine ⟨by decide, ?_⟩
  exact (c1_legacy_upgrade (fun p s => utf8Bytes p ++ s) (List.replicate 16 1)
    (⟨[⟨1, "a@x.com", none, utf8Bytes ("pw123456"), [], true⟩], []⟩ : AuthDB)
    ("a@x.com") ("pw123456") ⟨1, "a@x.com", none, utf8Bytes ("pw123456"), [], true⟩
    (by decide) (by decide) (by decide) (by decide) (by decide) (by decide) (by decide)).1

/-- C2: for every account marked inactive, `check_password` returns `false`
for every password (and leaves the store untouched); for active accounts
with a salted credential (salt not one of the two legacy sentinels, digest
non-empty), verification succeeds if and only if the supplied password
hashes with the stored salt to the stored digest. -/
theorem c2_verification (H : HashFun) (ns : Bytes) (db : AuthDB)
    (login password : String) (u : UserRow)
    (hfind : findUser db.users login = some u) :
    (u.is_active = false → check_password H ns db login password = (false, db)) ∧
    (u.is_active = true → u.salt ≠ [] → u.salt ≠ List.replicate 16 0 →
      u.password_hash ≠ [] →
      ((check_password H ns db login password).1 = true ↔
        H password u.salt = u.password_hash) ∧
      (check_password H ns db login password).2 = db) := by
  constructor
  · intro hina
    unfold check_password
    rw [hfind]
    simp [hina]
  · intro hact hs1 hs2 hne
    have hnleg : ¬ legacyCond u password := by
      rintro ⟨h1 | h1, _, _⟩
      · exact hs1 h1
      · exact hs2 h1
    have hnz : ¬ (u.salt = [] ∨ u.password_hash = []) := by
      rintro (h | h)
      · exact hs1 h
      · exact hne h
    have hrun : check_password H ns db login password =
        (decide (u.password_hash = _hash_password H password u.salt), db) := by
      unfold check_password
      rw [hfind]
      simp [hact, hnleg, hnz]
    rw [hrun]
    simp [_hash_password, eq_comm]

/-- C2 witness: a concrete active, salted account (hashing modelled by
appending the salt to the UTF-8 password) for which verification succeeds
exactly on the stored digest. -/
theorem c2_witness :
    findUser
      (⟨[⟨1, "a@x.com", none, utf8Bytes ("pw123456") ++ [5], [5], true⟩], []⟩ : AuthDB).users
      ("a@x.com") = some ⟨1, "a@x.com", none, utf8Bytes ("pw123456") ++ [5], [5], true⟩ ∧
    (((check_password (fun p s => utf8Bytes p ++ s) []
        (⟨[⟨1, "a@x.com", none, utf8Bytes ("pw123456") ++ [5], [5], true⟩], []⟩ : AuthDB)
        ("a@x.com") ("pw123456")).1 = true ↔
      (fun (p : String) (s : Bytes) => utf8Bytes p ++ s) ("pw123456") [5] =
        utf8Bytes ("pw123456") ++ [5]) ∧
     (check_password (fun p s => utf8Bytes p ++ s) []
        (⟨[⟨1, "a@x.com", none, utf8Bytes ("pw123456") ++ [5], [5], true⟩], []⟩ : AuthDB)
        ("a@x.com") ("pw123456")).2 =
       (⟨[⟨1, "a@x.com", none, utf8Bytes ("pw123456") ++ [5], [5], true⟩], []⟩ : AuthDB)) := by
  refine ⟨by decide, ?_⟩
  exact (c2_verification (fun p s => utf8Bytes p ++ s) []
    (⟨[⟨1, "a@x.com", none, utf8Bytes ("pw123456") ++ [5], [5], true⟩], []⟩ : AuthDB)
    ("a@x.com") ("pw123456") ⟨1, "a@x.com", none, utf8Bytes ("pw123456") ++ [5], [5], true⟩
    (by decide)).2 (by decide) (by decide) (by decide) (by decide)

/-- C3: redeeming an issued, unexpired, never-consumed password-change
token with a new password of length at least 8 succeeds, writing the new
salted credential and marking the token consumed in the same transaction;
every subsequent redemption of the same token leaves the store untouched
(the token is never un-consumed) and, whenever a new password is supplied
at all (an empty one is rejected as missing input before the token is even
looked up), fails with `AlreadyUsed` — at any later time and for any
password. -/
theorem c3_token_single_use (H : HashFun) (ns : Bytes) (now : Nat) (db : AuthDB)
    (tok pw : String) (t : TokenRow)
    (hfind : findToken db.tokens tok = some t)
    (hpurpose : t.purpose = "password_change")
    (hused : t.used_at = none)
    (hexp : now ≤ t.expires_at)
    (hlen : 8 ≤ pw.length)
    (htok : tok ≠ "") :
    (verify_token_and_change_password H ns now db tok pw).1 = RedeemResult.success ∧
    (verify_token_and_change_password H ns now db tok pw).2 =
      ⟨setCredUsers db.users t.user_id (H pw ns) ns, markUsed db.tokens t.id now⟩ ∧
    findToken (verify_token_and_change_password H ns now db tok pw).2.tokens tok =
      some { t with used_at := some now } ∧
    (∀ (ns' : Bytes) (now' : Nat) (pw' : String),
      (verify_token_and_change_password H ns' now'
          (verify_token_and_change_password H ns now db tok pw).2 tok pw').2 =
        (verify_token_and_change_password H ns now db tok pw).2 ∧
      (pw' ≠ "" →
        (verify_token_and_change_password H ns' now'
            (verify_token_and_change_password H ns now db tok pw).2 tok pw').1 =
          RedeemResult.alreadyUsed)) := by
  have hpw : pw ≠ "" := by
    intro h
    rw [h] at hlen
    exact absurd hlen (by decide)
  have hnmiss : ¬ (tok = "" ∨ pw = "") := by
    rintro (h | h)
    · exact htok h
    · exact hpw h
  have hrun : verify_token_and_change_password H ns now db tok pw =
      (.success, ⟨setCredUsers db.users t.user_id (H pw ns) ns, markUsed db.tokens t.id now⟩) := by
    unfold verify_token_and_change_password
    rw [if_neg hnmiss, hfind]
    simp [hpurpose, hused, Nat.not_lt.mpr hexp, Nat.not_lt.mpr hlen, _hash_password]
  have hfind2 : findToken (markUsed db.tokens t.id now) tok =
      some { t with used_at := some now } := by
    rw [findToken_markUsed, hfind]
    simp
  refine ⟨by simp only [hrun], by simp only [hrun], ?_, ?_⟩
  · simp only [hrun]
    exact hfind2
  · intro ns' now' pw'
    simp only [hrun]
    by_cases hpw' : pw' = ""
    · subst hpw'
      refine ⟨?_, fun h => absurd rfl h⟩
      unfold verify_token_and_change_password
      rw [if_pos (Or.inr rfl)]
    · have hnmiss2 : ¬ (tok = "" ∨ pw' = "") := by
        rintro (h | h)
        · exact htok h
        · exact hpw' h
      have hrun2 : verify_token_and_change_password H ns' now'
          (⟨setCredUsers db.users t.user_id (H pw ns) ns, markUsed db.tokens t.id now⟩ : AuthDB)
          tok pw' =
          (RedeemResult.alreadyUsed,
            ⟨setCredUsers db.users t.user_id (H pw ns) ns, markUsed db.tokens t.id now⟩) := by
        unfold verify_token_and_change_password
        rw [if_neg hnmiss2]
        simp [hfind2, hpurpose]
      exact ⟨by simp only [hrun2], fun _ => by simp only [hrun2]⟩

/-- C3 witness: a concrete fresh token redeemed once successfully; the
theorem then yields `AlreadyUsed` for any replay. -/
theorem c3_witness :
    findToken (⟨[⟨7, "b@x.com", none, [1], [2], true⟩],
        [⟨1, 7, "tokenabc", "password_change", 1000, none⟩]⟩ : AuthDB).tokens
      ("tokenabc") = some ⟨1, 7, "tokenabc", "password_change", 1000, none⟩ ∧
    (verify_token_and_change_password (fun p s => utf8Bytes p ++ s) [9] 500
        (⟨[⟨7, "b@x.com", none, [1], [2], true⟩],
          [⟨1, 7, "tokenabc", "password_change", 1000, none⟩]⟩ : AuthDB)
        ("tokenabc") ("newpass1")).1 = RedeemResult.success := by
  refine ⟨by decide, ?_⟩
  exact (c3_token_single_use (fun p s => utf8Bytes p ++ s) [9] 500
    (⟨[⟨7, "b@x.com", none, [1], [2], true⟩],
      [⟨1, 7, "tokenabc", "password_change", 1000, none⟩]⟩ : AuthDB)
    ("tokenabc") ("newpass1") ⟨1, 7, "tokenabc", "password_change", 1000, none⟩
    (by decide) (by decide) (by decide) (by decide) (by decide) (by decide)).1

/-- C4: for a token issued with `ttl = 15` minutes, a redemption attempt
strictly after issuance + 15 minutes fails with `Expired`, and an
otherwise-valid attempt (the purpose is `password_change` and the token is
unconsumed by construction; new password of length at least 8) strictly
before issuance + 15 minutes succeeds.  The freshly generated token string
is assumed not to collide with any stored token. -/
theorem c4_token_expiry (H : HashFun) (ns : Bytes) (db : AuthDB) (uid now now2 : Nat)
    (tok pw pw' : String)
    (hfresh : ∀ t ∈ db.tokens, t.token ≠ tok)
    (htok : tok ≠ "") :
    (now + 15 * 60 < now2 → pw' ≠ "" →
      (verify_token_and_change_password H ns now2
          (_create_token tok now db uid ("password_change") 15).2 tok pw').1 =
        RedeemResult.expired) ∧
    (now2 < now + 15 * 60 → 8 ≤ pw.length →
      (verify_token_and_change_password H ns now2
          (_create_token tok now db uid ("password_change") 15).2 tok pw).1 =
        RedeemResult.success) := by
  have hnone : db.tokens.find? (fun t => t.token = tok) = none := by
    apply List.find?_eq_none.mpr
    intro x hx
    simpa using hfresh x hx
  have hfind : findToken ((_create_token tok now db uid ("password_change") 15).2).tokens tok =
      some ⟨maxTokenId db + 1, uid, tok, ("password_change"), now + 15 * 60, none⟩ := by
    simp only [_create_token]
    unfold findToken
    rw [find?_append_none _ _ _ hnone]
    simp [List.find?]
  constructor
  · intro hlt hpw'
    have hnmiss : ¬ (tok = "" ∨ pw' = "") := by
      rintro (h | h)
      · exact htok h
      · exact hpw' h
    unfold verify_token_and_change_password
    rw [if_neg hnmiss]
    simp [hfind, hlt]
  · intro hlt hlen
    have hpw : pw ≠ "" := by
      intro h
      rw [h] at hlen
      exact absurd hlen (by decide)
    have hnmiss : ¬ (tok = "" ∨ pw = "") := by
      rintro (h | h)
      · exact htok h
      · exact hpw h
    unfold verify_token_and_change_password
    rw [if_neg hnmiss]
    simp [hfind, Nat.lt_asymm hlt, Nat.not_lt.mpr hlen]

/-- C4 witness: a concrete token issued at time 1000 fails with `Expired`
at time 2000 (strictly past the 900-second ttl) and succeeds at time 1500
(strictly before expiry). -/
theorem c4_witness :
    (verify_token_and_change_password (fun p s => utf8Bytes p ++ s) [3] 2000
        (_create_token ("freshtok") 1000 (⟨[⟨1, "a@x.com", none, [1], [2], true⟩], []⟩ : AuthDB)
          1 ("password_change") 15).2 ("freshtok") ("newpass1")).1 =
      RedeemResult.expired ∧
    (verify_token_and_change_password (fun p s => utf8Bytes p ++ s) [3] 1500
        (_create_token ("freshtok") 1000 (⟨[⟨1, "a@x.com", none, [1], [2], true⟩], []⟩ : AuthDB)
          1 ("password_change") 15).2 ("freshtok") ("newpass1")).1 =
      RedeemResult.success := by
  have h1500 := c4_token_expiry (fun p s => utf8Bytes p ++ s) [3]
    (⟨[⟨1, "a@x.com", none, [1], [2], true⟩], []⟩ : AuthDB) 1 1000 1500
    ("freshtok") ("newpass1") ("newpass1")
    (by intro t ht; simp at ht) (by decide)
  have h2000 := c4_token_expiry (fun p s => utf8Bytes p ++ s) [3]
    (⟨[⟨1, "a@x.com", none, [1], [2], true⟩], []⟩ : AuthDB) 1 1000 2000
    ("freshtok") ("newpass1") ("newpass1")
    (by intro t ht; simp at ht) (by decide)
  exact ⟨h2000.1 (by decide) (by decide), h1500.2 (by decide) (by decide)⟩

/-- C5: a reset request returns the identical generic `(ok, message)` pair
whether or not the identifier resolves to an active account (absent
email-transport failure on the resolving side); when it does not resolve,
the database — in particular the token table — is untouched; when it does,
exactly one token row is appended, with purpose `password_change` and
expiry `now + 15` minutes. -/
theorem c5_reset_request (eOk : Bool) (eErr tok tok' : String) (now now' : Nat)
    (dbA dbB : AuthDB) (loginA loginB : String) (u : UserRow)
    (hfind : findUser dbA.users loginA = some u)
    (hact : u.is_active = true)
    (hnores : ∀ v, findUser dbB.users loginB = some v → v.is_active = false) :
    (request_password_change true eErr tok now dbA loginA).1 =
      (request_password_change eOk eErr tok' now' dbB loginB).1 ∧
    (request_password_change true eErr tok now dbA loginA).1 = (true, genericResetMsg) ∧
    (request_password_change eOk eErr tok' now' dbB loginB).2 = dbB ∧
    ((request_password_change true eErr tok now dbA loginA).2).tokens =
      dbA.tokens ++
        [⟨maxTokenId dbA + 1, u.id, tok, ("password_change"), now + 15 * 60, none⟩] := by
  have hA : request_password_change true eErr tok now dbA loginA =
      ((true, genericResetMsg),
        { dbA with tokens := dbA.tokens ++
          [⟨maxTokenId dbA + 1, u.id, tok, ("password_change"), now + 15 * 60, none⟩] }) := by
    unfold request_password_change
    rw [hfind]
    simp [hact, _create_token]
  have hB : request_password_change eOk eErr tok' now' dbB loginB =
      ((true, genericResetMsg), dbB) := by
    unfold request_password_change
    cases hB0 : findUser dbB.users loginB with
    | none => rfl
    | some v =>
      have hv := hnores v hB0
      simp [hv]
  exact ⟨by simp only [hA, hB], by simp only [hA], by simp only [hB], by simp only [hA]⟩

/-- C5 witness: a run on a store containing an active account and a run on
an empty store return the identical generic pair; the empty store is left
untouched. -/
theorem c5_witness :
    (request_password_change true ("err") ("tokX") 100
        (⟨[⟨1, "a@x.com", none, [1], [2], true⟩], []⟩ : AuthDB) ("a@x.com")).1 =
      (request_password_change true ("err") ("tokY") 200 (⟨[], []⟩ : AuthDB)
        ("ghost@x.com")).1 ∧
    (request_password_change true ("err") ("tokY") 200 (⟨[], []⟩ : AuthDB)
        ("ghost@x.com")).2 = (⟨[], []⟩ : AuthDB) := by
  have h := c5_reset_request true ("err") ("tokX") ("tokY") 100 200
    (⟨[⟨1, "a@x.com", none, [1], [2], true⟩], []⟩ : AuthDB) (⟨[], []⟩ : AuthDB)
    ("a@x.com") ("ghost@x.com") ⟨1, "a@x.com", none, [1], [2], true⟩
    (by decide) (by decide) (by intro v hv; simp [findUser] at hv)
  exact ⟨h.1, h.2.2.1⟩

/-- Looking a name up after `updateSeq` returns the updated value exactly
when the name was present. -/
theorem lookupSeq_updateSeq (seqs : List (String × Nat)) (name : String) (v' : Nat) :
    lookupSeq (updateSeq seqs name v') name =
      (lookupSeq seqs name).map (fun _ => v') := by
  unfold lookupSeq updateSeq
  rw [find?_map_pres _ _ _ (fun p => by by_cases h : p.1 = name <;> simp [h])]
  cases hq : seqs.find? (fun p => p.1 = name) with
  | none => rfl
  | some q =>
    have hq1 : q.1 = name := by simpa using List.find?_some hq
    simp [hq1]

/-- Looking a name up in an appended sequence table skips an unmatched part. -/
theorem lookupSeq_append_of_none (seqs l : List (String × Nat)) (name : String)
    (h : lookupSeq seqs name = none) :
    lookupSeq (seqs ++ l) name = lookupSeq l name := by
  unfold lookupSeq at *
  cases hf : seqs.find? (fun p => p.1 = name) with
  | none => rw [find?_append_none _ _ _ hf]
  | some q => rw [hf] at h; simp at h

/-- C8: under sequential issuance the document-number generator is gap-free
and strictly increasing per `(prefix, year-month)` key: every call returns
the stored value plus one (one when the key is fresh) and stores that
value, formatted `PREFIX-YYYYMM-SEQ` zero-padded to the configured width;
in particular the first two calls of a fresh month with the default
configuration yield `INV-202501-0001` and `INV-202501-0002`. -/
theorem c8_doc_no_sequence :
    (∀ (pfx : String) (pad : Nat) (ym : String) (seqs : List (String × Nat)),
      (_next_doc_no pfx pad ym seqs).1 =
        pfx ++ "-" ++ ym ++ "-" ++
          zfill pad (toString ((lookupSeq seqs (pfx ++ "-" ++ ym)).getD 0 + 1)) ∧
      lookupSeq (_next_doc_no pfx pad ym seqs).2 (pfx ++ "-" ++ ym) =
        some ((lookupSeq seqs (pfx ++ "-" ++ ym)).getD 0 + 1)) ∧
    (_next_doc_no ("INV") 4 ("202501") []).1 = "INV-202501-0001" ∧
    (_next_doc_no ("INV") 4 ("202501") (_next_doc_no ("INV") 4 ("202501") []).2).1 =
      "INV-202501-0002" := by
  refine ⟨?_, by decide, by decide⟩
  intro pfx pad ym seqs
  cases h : lookupSeq seqs (pfx ++ "-" ++ ym) with
  | none =>
    constructor
    · simp only [_next_doc_no, h]
      rfl
    · simp only [_next_doc_no, h]
      rw [lookupSeq_append_of_none _ _ _ h]
      simp [lookupSeq, List.find?]
  | some v =>
    constructor
    · simp only [_next_doc_no, h, Option.getD]
    · simp only [_next_doc_no, h]
      rw [lookupSeq_updateSeq, h]
      rfl

/-- C9: in the line-item pass of `_header_from_group`, a source row is
dropped exactly when its parsed quantity is zero AND its product-name cell
is empty (missing / `NaN` in the spreadsheet, i.e. `pd.isna`); every
retained row yields a line item whose line total equals quantity times
price. -/
theorem c9_line_items (g : List Row) :
    rawItems g =
      (g.filter (fun r => !(decide (_f (rowGet? r ("Lineitem quantity")) = 0) &&
          cellIsNa (rowGet? r ("Lineitem name"))))).map
        (fun r =>
          { product_code := _s (rowGet? r ("Lineitem sku")),
            product_name := _s (rowGet? r ("Lineitem name")),
            unit := "",
            quantity := _f (rowGet? r ("Lineitem quantity")),
            price := _f (rowGet? r ("Lineitem price")),
            total_amount := _f (rowGet? r ("Lineitem quantity")) *
              _f (rowGet? r ("Lineitem price")) }) ∧
    (∀ it ∈ rawItems g, it.total_amount = it.quantity * it.price) := by
  constructor
  · induction g with
    | nil => rfl
    | cons r rest ih =>
      by_cases h1 : _f (rowGet? r ("Lineitem quantity")) = 0
      · by_cases h2 : cellIsNa (rowGet? r ("Lineitem name")) = true
        · simp [rawItems, h1, h2, List.filter_cons, ih]
        · simp [rawItems, h1, h2, List.filter_cons, ih]
      · simp [rawItems, h1, List.filter_cons, ih]
  · induction g with
    | nil => intro it hit; cases hit
    | cons r rest ih =>
      intro it hit
      by_cases h1 : _f (rowGet? r ("Lineitem quantity")) = 0 ∧
          cellIsNa (rowGet? r ("Lineitem name")) = true
      · rw [rawItems, if_pos h1] at hit
        exact ih it hit
      · rw [rawItems, if_neg h1] at hit
        rcases List.mem_cons.mp hit with heq | hmem
        · rw [heq]
        · exact ih it hmem

/-- C9 witness: in a two-row group whose noise row (zero quantity, missing
name) is dropped, the retained row's line item satisfies
total = quantity * price. -/
theorem c9_witness :
    (⟨"", "Widget", "", 3, 5, 3 * 5⟩ : Item) ∈
      rawItems [[("Name", Cell.str ("#1001")), ("Lineitem quantity", Cell.num 3),
        ("Lineitem name", Cell.str ("Widget")), ("Lineitem price", Cell.num 5)],
      [("Name", Cell.str ("#1001")), ("Lineitem quantity", Cell.num 0)]] ∧
    (⟨"", "Widget", "", 3, 5, 3 * 5⟩ : Item).total_amount =
      (⟨"", "Widget", "", 3, 5, 3 * 5⟩ : Item).quantity *
        (⟨"", "Widget", "", 3, 5, 3 * 5⟩ : Item).price := by
  have hmem : (⟨"", "Widget", "", 3, 5, 3 * 5⟩ : Item) ∈
      rawItems [[("Name", Cell.str ("#1001")), ("Lineitem quantity", Cell.num 3),
        ("Lineitem name", Cell.str ("Widget")), ("Lineitem price", Cell.num 5)],
      [("Name", Cell.str ("#1001")), ("Lineitem quantity", Cell.num 0)]] := by
    rw [(c9_line_items [[("Name", Cell.str ("#1001")), ("Lineitem quantity", Cell.num 3),
        ("Lineitem name", Cell.str ("Widget")), ("Lineitem price", Cell.num 5)],
      [("Name", Cell.str ("#1001")), ("Lineitem quantity", Cell.num 0)]]).1]
    apply List.mem_map.mpr
    refine ⟨[("Name", Cell.str ("#1001")), ("Lineitem quantity", Cell.num 3),
        ("Lineitem name", Cell.str ("Widget")), ("Lineitem price", Cell.num 5)], by decide, ?_⟩
    have hq : _f (rowGet? [("Name", Cell.str ("#1001")), ("Lineitem quantity", Cell.num 3),
        ("Lineitem name", Cell.str ("Widget")), ("Lineitem price", Cell.num 5)]
        ("Lineitem quantity")) = 3 := by decide
    have hp : _f (rowGet? [("Name", Cell.str ("#1001")), ("Lineitem quantity", Cell.num 3),
        ("Lineitem name", Cell.str ("Widget")), ("Lineitem price", Cell.num 5)]
        ("Lineitem price")) = 5 := by decide
    have hsku : _s (rowGet? [("Name", Cell.str ("#1001")), ("Lineitem quantity", Cell.num 3),
        ("Lineitem name", Cell.str ("Widget")), ("Lineitem price", Cell.num 5)]
        ("Lineitem sku")) = "" := by decide
    have hname : _s (rowGet? [("Name", Cell.str ("#1001")), ("Lineitem quantity", Cell.num 3),
        ("Lineitem name", Cell.str ("Widget")), ("Lineitem price", Cell.num 5)]
        ("Lineitem name")) = "Widget" := by decide
    simp only [hq, hp, hsku, hname]
  exact ⟨hmem, (c9_line_items [[("Name", Cell.str ("#1001")), ("Lineitem quantity", Cell.num 3),
      ("Lineitem name", Cell.str ("Widget")), ("Lineitem price", Cell.num 5)],
    [("Name", Cell.str ("#1001")), ("Lineitem quantity", Cell.num 0)]]).2 _ hmem⟩

/-- C7: financial-status normalization maps known synonyms
case-insensitively — in particular `"Unpaid"` becomes `"Pending"`, which is
allowed — title-cases unknown values — `"garbage-value"` becomes
`"Garbage-Value"`, which is not allowed — and any group whose normalised
status is outside {Pending, Paid, Voided} is routed to the skip outcome
with a logged reason and no write to the invoice store. -/
theorem c7_status_gate :
    _clean_status (some ("Unpaid")) = "Pending" ∧
    "Pending" ∈ ALLOWED_STATUS ∧
    _clean_status (some ("garbage-value")) = "Garbage-Value" ∧
    "Garbage-Value" ∉ ALLOWED_STATUS ∧
    (∀ (cfg : ImportCfg) (db : ImportDB) (g : List Row),
      ((_header_from_group cfg.combine g).1).financial_status ∉ ALLOWED_STATUS →
      processGroup cfg db g =
        ⟨db, Outcome.skippedStatus,
          ⟨"skip_invalid_status", ((_header_from_group cfg.combine g).1).invoice_no, none,
            "Invalid financial_status " ++
              ((_header_from_group cfg.combine g).1).financial_status ++
              " after normalization"⟩⟩) := by
  refine ⟨by decide, by decide, by decide, by decide, ?_⟩
  intro cfg db g h
  simp only [processGroup]
  rw [if_pos h]

/-- C7 witness: a concrete group with status `"garbage-value"` is skipped
with the logged reason and the store is unchanged. -/
theorem c7_witness :
    processGroup ⟨"INV", 4, "202501", true⟩ ⟨[], [], []⟩
        [[("Name", Cell.str ("#1001")), ("Financial Status", Cell.str ("garbage-value"))]] =
      ⟨⟨[], [], []⟩, Outcome.skippedStatus,
        ⟨"skip_invalid_status", "#1001", none,
          "Invalid financial_status Garbage-Value after normalization"⟩⟩ := by
  have h := c7_status_gate.2.2.2.2 ⟨"INV", 4, "202501", true⟩ ⟨[], [], []⟩
    [[("Name", Cell.str ("#1001")), ("Financial Status", Cell.str ("garbage-value"))]]
    (by decide)
  rw [h]
  decide

/-- dropWhile is idempotent. -/
theorem dropWhile_dropWhile (p : Char → Bool) (l : List Char) :
    (l.dropWhile p).dropWhile p = l.dropWhile p := by
  induction l with
  | nil => rfl
  | cons a t ih =>
    rw [List.dropWhile_cons]
    by_cases h : p a = true
    · rw [if_pos h]
      exact ih
    · rw [if_neg h, List.dropWhile_cons, if_neg h]

/-- dropWhile never lengthens a list. -/
theorem length_dropWhile_le' (p : Char → Bool) (l : List Char) :
    (l.dropWhile p).length ≤ l.length := by
  induction l with
  | nil => exact Nat.le_refl _
  | cons a t ih =>
    rw [List.dropWhile_cons]
    by_cases h : p a = true
    · rw [if_pos h]
      exact Nat.le_succ_of_le ih
    · rw [if_neg h]

/-- Trimming the back of a front-trimmed list keeps the front trimmed. -/
theorem dropWhile_reverse_dropWhile (p : Char → Bool) (X : List Char)
    (h : X.dropWhile p = X) :
    ((X.reverse.dropWhile p).reverse).dropWhile p = (X.reverse.dropWhile p).reverse := by
  cases hX : (X.reverse.dropWhile p).reverse with
  | nil => rfl
  | cons a t =>
    have hpre : a :: t <+: X := by
      rw [← hX]
      have h1 : (X.reverse.dropWhile p).reverse <+: X.reverse.reverse :=
        List.reverse_prefix.mpr (List.dropWhile_suffix p)
      rwa [List.reverse_reverse] at h1
    obtain ⟨rest, hrest⟩ := hpre
    have hpa : ¬ p a = true := by
      intro hp
      rw [← hrest, List.cons_append, List.dropWhile_cons, if_pos hp] at h
      have hlen := congrArg List.length h
      have hle := length_dropWhile_le' p (t ++ rest)
      simp only [List.length_cons] at hlen
      omega
    rw [List.dropWhile_cons, if_neg hpa]

/-- Python `str.strip()` is idempotent (character-list form). -/
theorem pyStripChars_idem (cs : List Char) :
    pyStripChars (pyStripChars cs) = pyStripChars cs := by
  unfold pyStripChars
  rw [dropWhile_reverse_dropWhile _ _ (dropWhile_dropWhile _ _), List.reverse_reverse]
  exact dropWhile_reverse_dropWhile _ _ (dropWhile_dropWhile _ _)

/-- Python `str.strip()` is idempotent. -/
theorem pyStrip_idem (s : String) : pyStrip (pyStrip s) = pyStrip s := by
  show String.mk (pyStripChars (String.mk (pyStripChars s.data)).data) = _
  rw [show (String.mk (pyStripChars s.data)).data = pyStripChars s.data from rfl,
    pyStripChars_idem]
  rfl

/-- Inputs that strip to the empty string or to a null-ish literal
normalise to `"Pending"`. -/
theorem clean_status_pending (x0 : String)
    (h : pyStrip x0 = "" ∨ pyLower (pyStrip x0) ∈ (["nan", "none", "null"] : List String)) :
    _clean_status (some x0) = "Pending" := by
  simp only [_clean_status]
  rw [if_pos h]

/-- The financial-status field of the header is the normalisation of the
first row's `Financial Status` cell (defaulting to `"Pending"`). -/
theorem header_financial_status (combine : Bool) (g : List Row) :
    ((_header_from_group combine g).1).financial_status =
      _clean_status (some
        (if hasCol (g.headD []) ("Financial Status") then
          _s (rowGet? (g.headD []) ("Financial Status")) else "Pending")) := rfl

/-- The body of the loop for a group past the gates always inserts or
updates. -/
theorem importValidGroup_outcome (cfg : ImportCfg) (db : ImportDB) (header : Header)
    (items : List Item) :
    (importValidGroup cfg db header items).outcome = Outcome.inserted ∨
    (importValidGroup cfg db header items).outcome = Outcome.updated := by
  simp only [importValidGroup]
  split
  · exact Or.inr rfl
  · exact Or.inl rfl

/-- C10: a group whose source financial-status value is missing (column
absent or `NaN` cell), empty, or one of the literal strings
`"nan"`/`"none"`/`"null"` (any casing), normalises to `"Pending"`, passes
the status gate (it is never routed to the invalid-status skip), and — when
the vendor and invoice-number gates also pass — is imported (inserted or
updated) rather than skipped. -/
theorem c10_missing_status (cfg : ImportCfg) (db : ImportDB) (g : List Row)
    (h : rowGet? (g.headD []) ("Financial Status") = none ∨
      rowGet? (g.headD []) ("Financial Status") = some Cell.na ∨
      ∃ s, rowGet? (g.headD []) ("Financial Status") = some (Cell.str s) ∧
        (pyStrip s = "" ∨ pyLower (pyStrip s) ∈ (["nan", "none", "null"] : List String))) :
    ((_header_from_group cfg.combine g).1).financial_status = "Pending" ∧
    "Pending" ∈ ALLOWED_STATUS ∧
    (processGroup cfg db g).outcome ≠ Outcome.skippedStatus ∧
    (((_header_from_group cfg.combine g).1).vendor ∈ ALLOWED_VENDORS →
      ((_header_from_group cfg.combine g).1).invoice_no ≠ "" →
      ((processGroup cfg db g).outcome = Outcome.inserted ∨
        (processGroup cfg db g).outcome = Outcome.updated)) := by
  have hfs : ((_header_from_group cfg.combine g).1).financial_status = "Pending" := by
    rw [header_financial_status]
    rcases h with h | h | ⟨s, hs, hcond⟩
    · have hc : hasCol (g.headD []) ("Financial Status") = false := by
        unfold hasCol
        rw [h]
        rfl
      rw [if_neg (by rw [hc]; decide)]
      decide
    · have hc : hasCol (g.headD []) ("Financial Status") = true := by
        unfold hasCol
        rw [h]
        rfl
      rw [if_pos hc, h]
      decide
    · have hc : hasCol (g.headD []) ("Financial Status") = true := by
        unfold hasCol
        rw [hs]
        rfl
      rw [if_pos hc, hs]
      show _clean_status (some (pyStrip s)) = "Pending"
      apply clean_status_pending
      rcases hcond with hc | hc
      · exact Or.inl (by rw [pyStrip_idem]; exact hc)
      · exact Or.inr (by rw [pyStrip_idem]; exact hc)
  have hmem : ((_header_from_group cfg.combine g).1).financial_status ∈ ALLOWED_STATUS := by
    rw [hfs]
    decide
  have hred : processGroup cfg db g =
      (if ((_header_from_group cfg.combine g).1).vendor ∉ ALLOWED_VENDORS then
        ⟨db, .skippedVendor,
          ⟨"skip_invalid_vendor", ((_header_from_group cfg.combine g).1).invoice_no, none,
            "Invalid vendor " ++ ((_header_from_group cfg.combine g).1).vendor ++
              " after normalization"⟩⟩
      else if ((_header_from_group cfg.combine g).1).invoice_no = "" then
        ⟨db, .skippedInvoiceNo,
          ⟨"skip_missing_invoice_no", "", none, "Missing invoice_no after normalization"⟩⟩
      else importValidGroup cfg db ((_header_from_group cfg.combine g).1)
        (_header_from_group cfg.combine g).2) := by
    simp only [processGroup]
    rw [if_neg (not_not_intro hmem)]
  refine ⟨hfs, by decide, ?_, ?_⟩
  · rw [hred]
    by_cases hv : ((_header_from_group cfg.combine g).1).vendor ∉ ALLOWED_VENDORS
    · rw [if_pos hv]
      intro hc
      cases hc
    · rw [if_neg hv]
      by_cases hi : ((_header_from_group cfg.combine g).1).invoice_no = ""
      · rw [if_pos hi]
        intro hc
        cases hc
      · rw [if_neg hi]
        rcases importValidGroup_outcome cfg db ((_header_from_group cfg.combine g).1)
            (_header_from_group cfg.combine g).2 with ho | ho <;>
          · rw [ho]
            intro hc
            cases hc
  · intro hv hi
    rw [hred, if_neg (not_not_intro hv), if_neg hi]
    exact importValidGroup_outcome cfg db _ _

/-- C10 witness: a concrete group whose `Financial Status` cell is the
literal string `"nan"` and which otherwise passes every gate is inserted. -/
theorem c10_witness :
    ((_header_from_group true [[("Name", Cell.str ("#1001")),
        ("Financial Status", Cell.str ("nan")),
        ("Vendor", Cell.str ("Takeout Store"))]]).1).financial_status = "Pending" ∧
    ((processGroup ⟨"INV", 4, "202501", true⟩ ⟨[], [], []⟩
        [[("Name", Cell.str ("#1001")), ("Financial Status", Cell.str ("nan")),
          ("Vendor", Cell.str ("Takeout Store"))]]).outcome = Outcome.inserted ∨
      (processGroup ⟨"INV", 4, "202501", true⟩ ⟨[], [], []⟩
        [[("Name", Cell.str ("#1001")), ("Financial Status", Cell.str ("nan")),
          ("Vendor", Cell.str ("Takeout Store"))]]).outcome = Outcome.updated) := by
  have h := c10_missing_status ⟨"INV", 4, "202501", true⟩ ⟨[], [], []⟩
    [[("Name", Cell.str ("#1001")), ("Financial Status", Cell.str ("nan")),
      ("Vendor", Cell.str ("Takeout Store"))]]
    (Or.inr (Or.inr ⟨"nan", by decide, Or.inr (by decide)⟩))
  exact ⟨h.1, h.2.2.2 (by decide) (by decide)⟩

/-- Every stored sale id is bounded by the high-water mark. -/
theorem le_foldr_max (r : SaleRow) (l : List SaleRow) (hr : r ∈ l) :
    r.id ≤ l.foldr (fun x m => max x.id m) 0 := by
  induction l with
  | nil => cases hr
  | cons a t ih =>
    rcases List.mem_cons.mp hr with h | h
    · rw [h, List.foldr_cons]
      exact le_max_left _ _
    · rw [List.foldr_cons]
      exact le_trans (ih h) (le_max_right _ _)

/-- The upsert of `_save_order` preserves the primary-key invariant,
preserves every invoice number already present, and establishes the
presence of the saved header's invoice number. -/
theorem save_order_spec (db : ImportDB) (header : Header) (items : List Item)
    (hnd : salesIdsNodup db) :
    salesIdsNodup (_save_order db header items).2 ∧
    (∀ inv, saleHasInv db inv → saleHasInv (_save_order db header items).2 inv) ∧
    saleHasInv (_save_order db header items).2 header.invoice_no := by
  cases hf : db.sales.find? (fun r => r.invoice_no = header.invoice_no) with
  | some r =>
    have hrmem : r ∈ db.sales := List.mem_of_find?_eq_some hf
    have hrinv : r.invoice_no = header.invoice_no := by simpa using List.find?_some hf
    simp only [_save_order, hf]
    refine ⟨?_, ?_, ?_⟩
    · show ((db.sales.map (updSale header r.id)).map (fun x => x.id)).Nodup
      have hids : (db.sales.map (updSale header r.id)).map (fun x => x.id) =
          db.sales.map (fun x => x.id) := by
        rw [List.map_map]
        apply List.map_congr_left
        intro x _
        show (updSale header r.id x).id = x.id
        unfold updSale
        by_cases h : x.id = r.id <;> simp [h]
      rw [hids]
      exact hnd
    · rintro inv ⟨x, hx, hxinv⟩
      refine ⟨updSale header r.id x, List.mem_map_of_mem _ hx, ?_⟩
      unfold updSale
      by_cases h : x.id = r.id
      · have hx_eq : x = r := List.inj_on_of_nodup_map hnd hx hrmem (by rw [h])
        rw [if_pos h]
        show header.invoice_no = inv
        rw [← hrinv, ← hx_eq, hxinv]
      · rw [if_neg h]
        exact hxinv
    · refine ⟨updSale header r.id r, List.mem_map_of_mem _ hrmem, ?_⟩
      unfold updSale
      rw [if_pos rfl]
  | none =>
    simp only [_save_order, hf]
    refine ⟨?_, ?_, ?_⟩
    · show ((db.sales ++ [mkSale (maxSaleId db + 1) header]).map (fun x => x.id)).Nodup
      rw [List.map_append]
      rw [List.nodup_append]
      refine ⟨hnd, by simp, ?_⟩
      intro a ha hb
      have hmax : ∀ y ∈ db.sales.map (fun x => x.id), y ≤ maxSaleId db := by
        intro y hy
        rcases List.mem_map.mp hy with ⟨x, hx, hxy⟩
        rw [← hxy]
        exact le_foldr_max x db.sales hx
      have h1 : a ≤ maxSaleId db := hmax a ha
      have h2 : a = maxSaleId db + 1 := by simpa [mkSale] using hb
      omega
    · rintro inv ⟨x, hx, hxinv⟩
      exact ⟨x, List.mem_append_left _ hx, hxinv⟩
    · exact ⟨mkSale (maxSaleId db + 1) header,
        List.mem_append_right _ (by simp), rfl⟩

/-- Processing a gate-passing group preserves the primary-key invariant and
every present invoice number, establishes the saved invoice number, and
resolves to update exactly when the invoice number was already present. -/
theorem importValidGroup_spec (cfg : ImportCfg) (db : ImportDB) (header : Header)
    (items : List Item) (hnd : salesIdsNodup db) :
    salesIdsNodup (importValidGroup cfg db header items).db ∧
    (∀ inv, saleHasInv db inv → saleHasInv (importValidGroup cfg db header items).db inv) ∧
    saleHasInv (importValidGroup cfg db header items).db header.invoice_no ∧
    (saleHasInv db header.invoice_no →
      (importValidGroup cfg db header items).outcome = Outcome.updated) ∧
    (¬ saleHasInv db header.invoice_no →
      (importValidGroup cfg db header items).outcome = Outcome.inserted) := by
  cases hfind : db.sales.find? (fun r => r.invoice_no = header.invoice_no) with
  | some r =>
    have hex : saleHasInv db header.invoice_no :=
      ⟨r, List.mem_of_find?_eq_some hfind, by simpa using List.find?_some hfind⟩
    have hsp := save_order_spec
      { db with seqs :=
        if header.receipt_number = "" then (_next_doc_no cfg.pfx cfg.pad cfg.ym db.seqs).2
        else db.seqs }
      { header with receipt_number :=
        if r.receipt_number ≠ "" then r.receipt_number
        else if header.receipt_number = "" then (_next_doc_no cfg.pfx cfg.pad cfg.ym db.seqs).1
        else header.receipt_number }
      items hnd
    refine ⟨?_, ?_, ?_, fun _ => ?_, fun hn => absurd hex hn⟩
    · simp only [importValidGroup, hfind]
      exact hsp.1
    · simp only [importValidGroup, hfind]
      exact hsp.2.1
    · simp only [importValidGroup, hfind]
      exact hsp.2.2
    · simp only [importValidGroup, hfind]
  | none =>
    have hnotex : ¬ saleHasInv db header.invoice_no := by
      rintro ⟨x, hx, hxinv⟩
      have hno := List.find?_eq_none.mp hfind x hx
      simp at hno
      exact hno hxinv
    have hsp := save_order_spec
      { db with seqs :=
        if header.receipt_number = "" then (_next_doc_no cfg.pfx cfg.pad cfg.ym db.seqs).2
        else db.seqs }
      { header with receipt_number :=
        if header.receipt_number = "" then (_next_doc_no cfg.pfx cfg.pad cfg.ym db.seqs).1
        else header.receipt_number }
      items hnd
    refine ⟨?_, ?_, ?_, fun hx => absurd hx hnotex, fun _ => ?_⟩
    · simp only [importValidGroup, hfind]
      exact hsp.1
    · simp only [importValidGroup, hfind]
      exact hsp.2.1
    · simp only [importValidGroup, hfind]
      exact hsp.2.2
    · simp only [importValidGroup, hfind]

/-- A group is valid exactly when the three gate conditions hold. -/
theorem validGroup_iff (c : Bool) (g : List Row) :
    validGroup c g = true ↔
      ((_header_from_group c g).1.financial_status ∈ ALLOWED_STATUS ∧
       (_header_from_group c g).1.vendor ∈ ALLOWED_VENDORS ∧
       (_header_from_group c g).1.invoice_no ≠ "") := by
  unfold validGroup
  simp [Bool.and_eq_true, decide_eq_true_iff, and_assoc]

/-- One loop iteration: invalid groups are skipped with no store change;
valid groups preserve and establish invoice presence, updating exactly
when the invoice number was already stored. -/
theorem processGroup_spec (cfg : ImportCfg) (db : ImportDB) (g : List Row)
    (hnd : salesIdsNodup db) :
    salesIdsNodup (processGroup cfg db g).db ∧
    (∀ inv, saleHasInv db inv → saleHasInv (processGroup cfg db g).db inv) ∧
    (validGroup cfg.combine g = false →
      (processGroup cfg db g).db = db ∧
      (processGroup cfg db g).outcome ≠ Outcome.inserted ∧
      (processGroup cfg db g).outcome ≠ Outcome.updated) ∧
    (validGroup cfg.combine g = true →
      saleHasInv (processGroup cfg db g).db (invOf cfg.combine g) ∧
      (saleHasInv db (invOf cfg.combine g) →
        (processGroup cfg db g).outcome = Outcome.updated) ∧
      (¬ saleHasInv db (invOf cfg.combine g) →
        (processGroup cfg db g).outcome = Outcome.inserted)) := by
  by_cases hs : (_header_from_group cfg.combine g).1.financial_status ∈ ALLOWED_STATUS
  · by_cases hv : (_header_from_group cfg.combine g).1.vendor ∈ ALLOWED_VENDORS
    · by_cases hi : (_header_from_group cfg.combine g).1.invoice_no = ""
      · have hred : processGroup cfg db g =
            ⟨db, .skippedInvoiceNo,
              ⟨"skip_missing_invoice_no", "", none, "Missing invoice_no after normalization"⟩⟩ := by
          simp only [processGroup]
          rw [if_neg (not_not_intro hs), if_neg (not_not_intro hv), if_pos hi]
        have hvg : validGroup cfg.combine g = false := by
          rw [Bool.eq_false_iff]
          intro hvg
          exact ((validGroup_iff cfg.combine g).mp hvg).2.2 hi
        rw [hred]
        refine ⟨hnd, fun inv h => h, fun _ => ⟨rfl, by simp, by simp⟩, fun hvg' => ?_⟩
        rw [hvg] at hvg'
        cases hvg'
      · have hred : processGroup cfg db g =
            importValidGroup cfg db (_header_from_group cfg.combine g).1
              (_header_from_group cfg.combine g).2 := by
          simp only [processGroup]
          rw [if_neg (not_not_intro hs), if_neg (not_not_intro hv), if_neg hi]
        have hvg : validGroup cfg.combine g = true :=
          (validGroup_iff cfg.combine g).mpr ⟨hs, hv, hi⟩
        have hsp := importValidGroup_spec cfg db (_header_from_group cfg.combine g).1
          (_header_from_group cfg.combine g).2 hnd
        rw [hred]
        refine ⟨hsp.1, hsp.2.1, fun hvg' => ?_, fun _ => ⟨hsp.2.2.1, hsp.2.2.2.1, hsp.2.2.2.2⟩⟩
        rw [hvg] at hvg'
        cases hvg'
    · have hred : processGroup cfg db g =
          ⟨db, .skippedVendor,
            ⟨"skip_invalid_vendor", (_header_from_group cfg.combine g).1.invoice_no, none,
              "Invalid vendor " ++ (_header_from_group cfg.combine g).1.vendor ++
                " after normalization"⟩⟩ := by
        simp only [processGroup]
        rw [if_neg (not_not_intro hs), if_pos hv]
      have hvg : validGroup cfg.combine g = false := by
        rw [Bool.eq_false_iff]
        intro hvg
        exact hv ((validGroup_iff cfg.combine g).mp hvg).2.1
      rw [hred]
      refine ⟨hnd, fun inv h => h, fun _ => ⟨rfl, by simp, by simp⟩, fun hvg' => ?_⟩
      rw [hvg] at hvg'
      cases hvg'
  · have hred : processGroup cfg db g =
        ⟨db, .skippedStatus,
          ⟨"skip_invalid_status", (_header_from_group cfg.combine g).1.invoice_no, none,
            "Invalid financial_status " ++
              (_header_from_group cfg.combine g).1.financial_status ++
              " after normalization"⟩⟩ := by
      simp only [processGroup]
      rw [if_pos hs]
    have hvg : validGroup cfg.combine g = false := by
      rw [Bool.eq_false_iff]
      intro hvg
      exact hs ((validGroup_iff cfg.combine g).mp hvg).1
    rw [hred]
    refine ⟨hnd, fun inv h => h, fun _ => ⟨rfl, by simp, by simp⟩, fun hvg' => ?_⟩
    rw [hvg] at hvg'
    cases hvg'

/-- Fold of `processGroup_spec` over a whole run: the run preserves the
primary-key invariant and present invoice numbers, establishes the invoice
number of every valid group, and — when every valid group's invoice number
is already present at the start — inserts nothing and updates exactly the
valid groups. -/
theorem runGroups_spec (cfg : ImportCfg) (gs : List (List Row)) :
    ∀ db : ImportDB, salesIdsNodup db →
      salesIdsNodup (runGroups cfg db gs).db ∧
      (∀ inv, saleHasInv db inv → saleHasInv (runGroups cfg db gs).db inv) ∧
      (∀ g ∈ gs, validGroup cfg.combine g = true →
        saleHasInv (runGroups cfg db gs).db (invOf cfg.combine g)) ∧
      ((∀ g ∈ gs, validGroup cfg.combine g = true → saleHasInv db (invOf cfg.combine g)) →
        (runGroups cfg db gs).summary.imported = 0 ∧
        (runGroups cfg db gs).summary.updated =
          (gs.filter (fun g => validGroup cfg.combine g)).length) := by
  induction gs with
  | nil =>
    intro db hnd
    exact ⟨hnd, fun inv h => h, by simp, fun _ => ⟨rfl, rfl⟩⟩
  | cons g gs ih =>
    intro db hnd
    have hps := processGroup_spec cfg db g hnd
    have hih := ih (processGroup cfg db g).db hps.1
    have hrun : runGroups cfg db (g :: gs) =
        ⟨(runGroups cfg (processGroup cfg db g).db gs).db,
          addSummary (tally (processGroup cfg db g).outcome)
            (runGroups cfg (processGroup cfg db g).db gs).summary⟩ := rfl
    rw [hrun]
    refine ⟨hih.1, fun inv h => hih.2.1 inv (hps.2.1 inv h), ?_, ?_⟩
    · intro g' hg' hvg'
      rcases List.mem_cons.mp hg' with h | h
      · subst h
        exact hih.2.1 _ ((hps.2.2.2 hvg').1)
      · exact hih.2.2.1 g' h hvg'
    · intro hpre
      by_cases hvg : validGroup cfg.combine g = true
      · have hg_in : saleHasInv db (invOf cfg.combine g) :=
          hpre g (List.mem_cons_self g gs) hvg
        have hout : (processGroup cfg db g).outcome = Outcome.updated :=
          (hps.2.2.2 hvg).2.1 hg_in
        have hcounts := hih.2.2.2 (fun g' hg' hvg' =>
          hps.2.1 _ (hpre g' (List.mem_cons_of_mem g hg') hvg'))
        constructor
        · show (tally (processGroup cfg db g).outcome).imported +
            (runGroups cfg (processGroup cfg db g).db gs).summary.imported = 0
          rw [hout, hcounts.1]
          rfl
        · show (tally (processGroup cfg db g).outcome).updated +
            (runGroups cfg (processGroup cfg db g).db gs).summary.updated = _
          rw [hout, hcounts.2, List.filter_cons, if_pos (by exact hvg)]
          simp [tally, Nat.add_comm]
      · have hvg' : validGroup cfg.combine g = false := Bool.eq_false_iff.mpr hvg
        have hskip := hps.2.2.1 hvg'
        have htally : tally (processGroup cfg db g).outcome = ⟨0, 0, 1⟩ := by
          rcases ho : (processGroup cfg db g).outcome with _ | _ | _ | _ | _
          · rfl
          · rfl
          · rfl
          · exact absurd ho hskip.2.1
          · exact absurd ho hskip.2.2
        have hcounts := hih.2.2.2 (fun g' hg' hvg'' => by
          rw [hskip.1]
          exact hpre g' (List.mem_cons_of_mem g hg') hvg'')
        constructor
        · show (tally (processGroup cfg db g).outcome).imported +
            (runGroups cfg (processGroup cfg db g).db gs).summary.imported = 0
          rw [htally, hcounts.1]
        · show (tally (processGroup cfg db g).outcome).updated +
            (runGroups cfg (processGroup cfg db g).db gs).summary.updated = _
          rw [htally, hcounts.2, List.filter_cons, if_neg (by rw [hvg']; exact Bool.false_ne_true)]
          simp

/-- C6: importing the same group list twice in succession is idempotent on
the invoice store's header counts: assuming only the primary-key invariant
on the initial store, the second run inserts zero new invoice headers
(`Imported = 0`) and reports `Updated = N` where `N` is the number of valid
groups, because every valid group's invoice number is present after the
first run and each group then upserts by its unique invoice number. -/
theorem c6_reimport_idempotent (cfg : ImportCfg) (db0 : ImportDB)
    (groups : List (List Row)) (hnd : salesIdsNodup db0) :
    (runGroups cfg (runGroups cfg db0 groups).db groups).summary.imported = 0 ∧
    (runGroups cfg (runGroups cfg db0 groups).db groups).summary.updated =
      (groups.filter (fun g => validGroup cfg.combine g)).length := by
  have h1 := runGroups_spec cfg groups db0 hnd
  have h2 := runGroups_spec cfg groups (runGroups cfg db0 groups).db h1.1
  exact h2.2.2.2 (fun g hg hv => h1.2.2.1 g hg hv)

/-- C6 witness: re-importing a one-valid-group file over an empty store
inserts nothing on the second run and updates exactly the one valid
group. -/
theorem c6_witness :
    (runGroups ⟨"INV", 4, "202501", true⟩
        (runGroups ⟨"INV", 4, "202501", true⟩ ⟨[], [], []⟩
          [[[("Name", Cell.str ("#1001")), ("Financial Status", Cell.str ("Paid")),
             ("Vendor", Cell.str ("Takeout Store"))]]]).db
        [[[("Name", Cell.str ("#1001")), ("Financial Status", Cell.str ("Paid")),
           ("Vendor", Cell.str ("Takeout Store"))]]]).summary.imported = 0 ∧
    (runGroups ⟨"INV", 4, "202501", true⟩
        (runGroups ⟨"INV", 4, "202501", true⟩ ⟨[], [], []⟩
          [[[("Name", Cell.str ("#1001")), ("Financial Status", Cell.str ("Paid")),
             ("Vendor", Cell.str ("Takeout Store"))]]]).db
        [[[("Name", Cell.str ("#1001")), ("Financial Status", Cell.str ("Paid")),
           ("Vendor", Cell.str ("Takeout Store"))]]]).summary.updated =
      ([[[("Name", Cell.str ("#1001")), ("Financial Status", Cell.str ("Paid")),
          ("Vendor", Cell.str ("Takeout Store"))]]].filter
        (fun g => validGroup true g)).length :=
  c6_reimport_idempotent ⟨"INV", 4, "202501", true⟩ ⟨[], [], []⟩
    [[[("Name", Cell.str ("#1001")), ("Financial Status", Cell.str ("Paid")),
       ("Vendor", Cell.str ("Takeout Store"))]]] (by decide)
